import Mathlib

/-!
Verification of the ESP32-CAM streaming firmware
(file `ws_esp32cam_stream2/src/main.cpp`, plus the event callback of
`ws_esp32cam_stream2/test_connection_simple.cpp`).

The firmware is a single-threaded `setup()/loop()` sketch.  We embed one
iteration of `loop()` as a pure function `loopStep` on an explicit state
record `LoopState`, parameterised by the per-iteration environment inputs
`LoopInput` (inbound WebSocket events delivered by `client.poll()`, the
outcome of a `client.connect` call, the camera capture result, and the
values returned by the three `millis()` reads of the iteration).  Every
externally visible effect of an iteration (serial prints, WebSocket sends,
connect attempts, frame-buffer acquire/release, `delay` calls) is recorded
in an `Act` trace, in program order.

`unsigned long` values (32-bit on the ESP32) are modelled as `Nat`, with
the wrap-around subtraction of C unsigned arithmetic made explicit by
`usub`.  The C `float fps` and its arithmetic are modelled by exact
rational arithmetic over `ℚ`; `String(x)` number formatting inside message
literals is modelled by keeping the numbers structured (`LogMsg`, `Msg`)
instead of rendering decimal text.
-/

/-- 2^32, the modulus of `unsigned long` arithmetic on the ESP32. -/
def ULONG_MOD : Nat := 4294967296

/-- C unsigned 32-bit subtraction `a - b` (for `a b < ULONG_MOD`). -/
def usub (a b : Nat) : Nat := (a + ULONG_MOD - b) % ULONG_MOD

/-- `const unsigned long HEARTBEAT_INTERVAL = 30000` (main.cpp line 58). -/
def HEARTBEAT_INTERVAL : Nat := 30000

/-- `const unsigned long MAX_CONNECTION_ATTEMPTS = 5` (main.cpp line 60). -/
def MAX_CONNECTION_ATTEMPTS : Nat := 5

/-- `const char* AUTH_TOKEN` (main.cpp line 19). -/
def AUTH_TOKEN : String := "esp32cam_secure_token_2024"

/-- A camera frame buffer (`camera_fb_t`): JPEG byte length and dimensions. -/
structure Frame where
  len : Nat
  width : Nat
  height : Nat
deriving DecidableEq

/-- The WebSocket events dispatched to `onEventsCallback` in main.cpp. -/
inductive WsEvent where
  | connectionOpened
  | connectionClosed
deriving DecidableEq

/-- Content of a log line.  The source renders these to strings with
`String(...)` concatenation; we keep the embedded numbers structured. -/
inductive LogMsg where
  | text (s : String)
  | reconnectAttempt (n maxN : Nat)
  | fpsReport (value : ℚ)
deriving DecidableEq

/-- A JSON text message sent over the WebSocket, kept structured
field-for-field as the source builds it by string concatenation. -/
inductive Msg where
  | log (message : LogMsg)
  | connection (status device token : String)
  | heartbeat (timestamp : Nat) (device : String)
  | frameMeta (size width height timestamp : Nat) (fps : ℚ) (device : String)
  | deviceInfo (device version : String)
deriving DecidableEq

/-- An externally visible effect of the firmware, in program order. -/
inductive Act where
  | serialPrint (m : LogMsg)
  | send (m : Msg)
  | sendBinary (len : Nat)
  | connectAttempt
  | fbAcquire
  | fbReturn
  | delayMs (ms : Nat)
deriving DecidableEq

/-- The global mutable variables of main.cpp that `loop()` reads or writes. -/
structure LoopState where
  isConnected : Bool
  connectionAttempts : Nat
  lastHeartbeat : Nat
  frameCount : Nat
  lastFrameTime : Nat
  fps : ℚ
deriving DecidableEq

/-- Environment inputs consumed by one iteration of `loop()`:
the events `client.poll()` dispatches, the outcome a `client.connect`
call would have, the camera capture result, and the three `millis()`
reads (line 208, line 228 inside the metadata string, line 251). -/
structure LoopInput where
  pollEvents : List WsEvent
  connectResult : Bool
  frame : Option Frame
  tCurrent : Nat
  tMeta : Nat
  tPacing : Nat

/-- `sendLog` (main.cpp lines 63-70): always prints to serial; sends a
log-typed JSON message over the WebSocket only when `isConnected`. -/
def sendLog (st : LoopState) (m : LogMsg) : List Act :=
  Act.serialPrint m ::
    (if st.isConnected then [Act.send (Msg.log m)] else [])

/-- `onEventsCallback` (main.cpp lines 73-81): `sendLog` runs before the
flag assignment, so it sees the pre-event `isConnected`. -/
def onEventsCallback (st : LoopState) (e : WsEvent) : LoopState × List Act :=
  match e with
  | WsEvent.connectionOpened =>
      ({ st with isConnected := true }, sendLog st (LogMsg.text "Connection opened"))
  | WsEvent.connectionClosed =>
      ({ st with isConnected := false }, sendLog st (LogMsg.text "Connection closed"))

/-- `client.poll()` (main.cpp line 187): dispatches the queued inbound
events through `onEventsCallback`, in order. -/
def pollStep : List WsEvent → LoopState → LoopState × List Act
  | [], st => (st, [])
  | e :: rest, st =>
      let c := onEventsCallback st e
      let r := pollStep rest c.1
      (r.1, c.2 ++ r.2)

/-- `connectWebSocket` (main.cpp lines 84-109): makes one connect attempt;
on success sets `isConnected` and sends the connection message, on failure
clears `isConnected`. -/
def connectWebSocket (connectResult : Bool) (st : LoopState) : LoopState × List Act :=
  if connectResult then
    ({ st with isConnected := true },
     [Act.connectAttempt,
      Act.serialPrint (LogMsg.text "WebSocket connected successfully!"),
      Act.send (Msg.connection "connected" "ESP32CAM" AUTH_TOKEN)])
  else
    ({ st with isConnected := false },
     [Act.connectAttempt,
      Act.serialPrint (LogMsg.text "WebSocket connection failed.")])

/-- The disconnected branch of `loop()` (main.cpp lines 190-202):
below the attempt cap, log, attempt a connect, increment the counter and
take the short 5000 ms backoff; at the cap, log, reset the counter and
take the long 30000 ms backoff without attempting a connect. -/
def reconnectStep (inp : LoopInput) (st : LoopState) : LoopState × List Act :=
  if st.connectionAttempts < MAX_CONNECTION_ATTEMPTS then
    let logActs := sendLog st (LogMsg.reconnectAttempt (st.connectionAttempts + 1) MAX_CONNECTION_ATTEMPTS)
    let c := connectWebSocket inp.connectResult st
    ({ c.1 with connectionAttempts := c.1.connectionAttempts + 1 },
     logActs ++ c.2 ++ [Act.delayMs 5000])
  else
    let logActs := sendLog st (LogMsg.text "Max reconnection attempts reached. Waiting longer before retry...")
    ({ st with connectionAttempts := 0 }, logActs ++ [Act.delayMs 30000])

/-- The heartbeat block of `loop()` (main.cpp lines 208-213). -/
def heartbeatStep (t : Nat) (st : LoopState) : LoopState × List Act :=
  if HEARTBEAT_INTERVAL ≤ usub t st.lastHeartbeat then
    ({ st with lastHeartbeat := t }, [Act.send (Msg.heartbeat t "ESP32CAM")])
  else
    (st, [])

/-- The FPS-counter block of `loop()` (main.cpp lines 241-247):
`frameCount++` precedes the window check, so the reported value counts
the current frame; after a report the count is zeroed and the window
start moves to `currentTime`. -/
def fpsStep (t : Nat) (st : LoopState) : LoopState × List Act :=
  let st1 := { st with frameCount := st.frameCount + 1 }
  if 1000 ≤ usub t st1.lastFrameTime then
    let newFps : ℚ := ((st1.frameCount : ℚ) * 1000) / ((usub t st1.lastFrameTime : Nat) : ℚ)
    let st2 := { st1 with fps := newFps }
    ({ st2 with frameCount := 0, lastFrameTime := t },
     sendLog st2 (LogMsg.fpsReport newFps))
  else
    (st1, [])

/-- The frame-pacing block of `loop()` (main.cpp lines 250-254), with the
unsigned arithmetic of the source kept exactly:
`elapsed = millis() - (currentTime - frameDuration)`. -/
def pacingStep (tCurrent tPacing : Nat) : List Act :=
  let frameDuration : Nat := 33
  let elapsed := usub tPacing (usub tCurrent frameDuration)
  if elapsed < frameDuration then [Act.delayMs (usub frameDuration elapsed)] else []

/-- The connected branch of `loop()` (main.cpp lines 205-254): reset the
attempt counter, maybe send a heartbeat, capture a frame (early return on
failure), send metadata followed by the binary frame when still connected,
release the frame buffer, update the FPS counter, pace the iteration. -/
def connectedStep (inp : LoopInput) (st0 : LoopState) : LoopState × List Act :=
  let st := { st0 with connectionAttempts := 0 }
  let hb := heartbeatStep inp.tCurrent st
  match inp.frame with
  | none =>
      (hb.1, hb.2 ++ [Act.serialPrint (LogMsg.text "Camera capture failed")])
  | some fb =>
      let sendActs :=
        if hb.1.isConnected then
          [Act.send (Msg.frameMeta fb.len fb.width fb.height inp.tMeta hb.1.fps "ESP32CAM"),
           Act.sendBinary fb.len]
        else []
      let f := fpsStep inp.tCurrent hb.1
      (f.1,
       hb.2 ++ [Act.fbAcquire] ++ sendActs ++ [Act.fbReturn]
            ++ f.2 ++ pacingStep inp.tCurrent inp.tPacing)

/-- One iteration of `loop()` (main.cpp lines 185-255). -/
def loopStep (inp : LoopInput) (st : LoopState) : LoopState × List Act :=
  let p := pollStep inp.pollEvents st
  if p.1.isConnected then
    let c := connectedStep inp p.1
    (c.1, p.2 ++ c.2)
  else
    let r := reconnectStep inp p.1
    (r.1, p.2 ++ r.2)

/-- Repeated iterations of `loop()`, with the concatenated action trace. -/
def runLoop : List LoopInput → LoopState → LoopState × List Act
  | [], st => (st, [])
  | inp :: rest, st =>
      let s := loopStep inp st
      let r := runLoop rest s.1
      (r.1, s.2 ++ r.2)

/-- The timestamp carried by a heartbeat send, if the action is one. -/
def heartbeatTime? : Act → Option Nat
  | Act.send (Msg.heartbeat t _) => some t
  | _ => none

/-- Timestamps of the heartbeat messages of a trace, in order. -/
def heartbeatTimes (l : List Act) : List Nat := l.filterMap heartbeatTime?

/-- The value carried by an FPS report (the `sendLog` of the FPS block),
if the action is one. -/
def fpsReport? : Act → Option ℚ
  | Act.serialPrint (LogMsg.fpsReport v) => some v
  | _ => none

/-- Values reported by the FPS counter within a trace, in order. -/
def fpsReports (l : List Act) : List ℚ := l.filterMap fpsReport?

/-- Times (the `millis()` read of each iteration) at which the FPS counter
reported, along a run. -/
def fpsReportTimes : List LoopInput → LoopState → List Nat
  | [], _ => []
  | inp :: rest, st =>
      (if fpsReports (loopStep inp st).2 = [] then [] else [inp.tCurrent])
        ++ fpsReportTimes rest (loopStep inp st).1

/-- The `millis()` reads along a run are nondecreasing, start at or after
`lb`, and stay below the 32-bit wrap. -/
def timesOK : Nat → List LoopInput → Bool
  | _, [] => true
  | lb, inp :: rest =>
      decide (lb ≤ inp.tCurrent) && decide (inp.tCurrent < ULONG_MOD)
        && timesOK inp.tCurrent rest

/-- Every element of `l` exceeds the previous one (and initially `lb`)
by at least `d`. -/
def GapFrom (d : Nat) : Nat → List Nat → Prop
  | _, [] => True
  | lb, t :: rest => lb + d ≤ t ∧ GapFrom d t rest

/-! ### Basic helper lemmas -/

theorem usub_eq_sub {a b : Nat} (hba : b ≤ a) (ha : a < ULONG_MOD) :
    usub a b = a - b := by
  unfold usub
  unfold ULONG_MOD at *
  omega

theorem heartbeatTimes_append (l l' : List Act) :
    heartbeatTimes (l ++ l') = heartbeatTimes l ++ heartbeatTimes l' := by
  simp [heartbeatTimes]

theorem fpsReports_append (l l' : List Act) :
    fpsReports (l ++ l') = fpsReports l ++ fpsReports l' := by
  simp [fpsReports]

theorem sendLog_actions {a : Act} {st : LoopState} {m : LogMsg}
    (h : a ∈ sendLog st m) :
    a = Act.serialPrint m ∨ a = Act.send (Msg.log m) := by
  unfold sendLog at h
  cases hC : st.isConnected <;> simp [hC] at h <;> tauto

theorem heartbeatTimes_sendLog (st : LoopState) (m : LogMsg) :
    heartbeatTimes (sendLog st m) = [] := by
  unfold sendLog
  cases hC : st.isConnected <;> simp [hC, heartbeatTimes, heartbeatTime?]

theorem fpsReports_sendLog_text (st : LoopState) (s : String) :
    fpsReports (sendLog st (LogMsg.text s)) = [] := by
  unfold sendLog
  cases hC : st.isConnected <;> simp [hC, fpsReports, fpsReport?]

theorem fpsReports_sendLog_reconnect (st : LoopState) (n k : Nat) :
    fpsReports (sendLog st (LogMsg.reconnectAttempt n k)) = [] := by
  unfold sendLog
  cases hC : st.isConnected <;> simp [hC, fpsReports, fpsReport?]

theorem pollStep_fields : ∀ (evs : List WsEvent) (st : LoopState),
    (pollStep evs st).1.connectionAttempts = st.connectionAttempts ∧
    (pollStep evs st).1.lastHeartbeat = st.lastHeartbeat ∧
    (pollStep evs st).1.frameCount = st.frameCount ∧
    (pollStep evs st).1.lastFrameTime = st.lastFrameTime ∧
    (pollStep evs st).1.fps = st.fps
  | [], st => by simp [pollStep]
  | e :: rest, st => by
      have h2 := pollStep_fields rest (onEventsCallback st e).1
      have h1 : (onEventsCallback st e).1.connectionAttempts = st.connectionAttempts ∧
          (onEventsCallback st e).1.lastHeartbeat = st.lastHeartbeat ∧
          (onEventsCallback st e).1.frameCount = st.frameCount ∧
          (onEventsCallback st e).1.lastFrameTime = st.lastFrameTime ∧
          (onEventsCallback st e).1.fps = st.fps := by
        cases e <;> simp [onEventsCallback]
      simp only [pollStep]
      exact ⟨h2.1.trans h1.1, (h2.2.1).trans h1.2.1, (h2.2.2.1).trans h1.2.2.1,
        (h2.2.2.2.1).trans h1.2.2.2.1, (h2.2.2.2.2).trans h1.2.2.2.2⟩

theorem pollStep_actions : ∀ {evs : List WsEvent} {st : LoopState} {a : Act},
    a ∈ (pollStep evs st).2 →
    ∃ s, a = Act.serialPrint (LogMsg.text s) ∨ a = Act.send (Msg.log (LogMsg.text s))
  | [], st, a, h => by simp [pollStep] at h
  | e :: rest, st, a, h => by
      simp only [pollStep, List.mem_append] at h
      rcases h with h | h
      · cases e <;> simp only [onEventsCallback] at h <;>
          rcases sendLog_actions h with h' | h' <;> exact ⟨_, by tauto⟩
      · exact pollStep_actions h

theorem heartbeatTimes_pollStep (evs : List WsEvent) (st : LoopState) :
    heartbeatTimes (pollStep evs st).2 = [] := by
  rw [heartbeatTimes, List.filterMap_eq_nil_iff]
  intro a ha
  rcases pollStep_actions ha with ⟨s, h | h⟩ <;> subst h <;> rfl

theorem fpsReports_pollStep (evs : List WsEvent) (st : LoopState) :
    fpsReports (pollStep evs st).2 = [] := by
  rw [fpsReports, List.filterMap_eq_nil_iff]
  intro a ha
  rcases pollStep_actions ha with ⟨s, h | h⟩ <;> subst h <;> rfl

theorem reconnectStep_fields (inp : LoopInput) (st : LoopState) :
    (reconnectStep inp st).1.lastHeartbeat = st.lastHeartbeat ∧
    (reconnectStep inp st).1.frameCount = st.frameCount ∧
    (reconnectStep inp st).1.lastFrameTime = st.lastFrameTime ∧
    (reconnectStep inp st).1.fps = st.fps := by
  unfold reconnectStep connectWebSocket
  cases hR : inp.connectResult <;> split <;> simp

theorem heartbeatTimes_reconnectStep (inp : LoopInput) (st : LoopState) :
    heartbeatTimes (reconnectStep inp st).2 = [] := by
  unfold reconnectStep connectWebSocket
  cases hR : inp.connectResult <;> split <;>
    simp [heartbeatTimes_append, heartbeatTimes_sendLog, heartbeatTimes, heartbeatTime?] <;>
    (intro a ha; rcases sendLog_actions ha with h | h <;> subst h <;> rfl)

theorem fpsReports_reconnectStep (inp : LoopInput) (st : LoopState) :
    fpsReports (reconnectStep inp st).2 = [] := by
  unfold reconnectStep connectWebSocket
  cases hR : inp.connectResult <;> split <;>
    simp [fpsReports_append, fpsReports_sendLog_text, fpsReports_sendLog_reconnect,
      fpsReports, fpsReport?] <;>
    (intro a ha; rcases sendLog_actions ha with h | h <;> subst h <;> rfl)

/-! ### Heartbeat characterization -/

theorem heartbeatStep_lastHeartbeat (t : Nat) (st : LoopState) :
    (heartbeatStep t st).1.lastHeartbeat
      = if HEARTBEAT_INTERVAL ≤ usub t st.lastHeartbeat then t else st.lastHeartbeat := by
  unfold heartbeatStep
  split <;> simp_all

theorem heartbeatStep_fields (t : Nat) (st : LoopState) :
    (heartbeatStep t st).1.isConnected = st.isConnected ∧
    (heartbeatStep t st).1.connectionAttempts = st.connectionAttempts ∧
    (heartbeatStep t st).1.frameCount = st.frameCount ∧
    (heartbeatStep t st).1.lastFrameTime = st.lastFrameTime ∧
    (heartbeatStep t st).1.fps = st.fps := by
  unfold heartbeatStep
  split <;> simp

theorem heartbeatTimes_heartbeatStep (t : Nat) (st : LoopState) :
    heartbeatTimes (heartbeatStep t st).2
      = if HEARTBEAT_INTERVAL ≤ usub t st.lastHeartbeat then [t] else [] := by
  unfold heartbeatStep
  split <;> simp_all <;> rfl

theorem fpsStep_fields (t : Nat) (st : LoopState) :
    (fpsStep t st).1.isConnected = st.isConnected ∧
    (fpsStep t st).1.lastHeartbeat = st.lastHeartbeat ∧
    (fpsStep t st).1.connectionAttempts = st.connectionAttempts := by
  simp only [fpsStep]
  split <;> simp

theorem heartbeatTimes_fpsStep (t : Nat) (st : LoopState) :
    heartbeatTimes (fpsStep t st).2 = [] := by
  simp only [fpsStep]
  split
  · exact heartbeatTimes_sendLog _ _
  · rfl

theorem heartbeatTimes_pacingStep (a b : Nat) :
    heartbeatTimes (pacingStep a b) = [] := by
  simp only [pacingStep]
  split <;> rfl

theorem fpsReports_heartbeatStep (t : Nat) (st : LoopState) :
    fpsReports (heartbeatStep t st).2 = [] := by
  unfold heartbeatStep
  split <;> rfl

theorem fpsReports_pacingStep (a b : Nat) :
    fpsReports (pacingStep a b) = [] := by
  simp only [pacingStep]
  split <;> rfl

theorem connectedStep_heartbeat (inp : LoopInput) (st : LoopState) :
    heartbeatTimes (connectedStep inp st).2
      = (if HEARTBEAT_INTERVAL ≤ usub inp.tCurrent st.lastHeartbeat then [inp.tCurrent] else [])
    ∧ (connectedStep inp st).1.lastHeartbeat
      = (if HEARTBEAT_INTERVAL ≤ usub inp.tCurrent st.lastHeartbeat then inp.tCurrent else st.lastHeartbeat) := by
  simp only [connectedStep]
  cases hf : inp.frame with
  | none =>
      constructor
      · rw [heartbeatTimes_append, heartbeatTimes_heartbeatStep]
        simp [heartbeatTimes, heartbeatTime?]
      · rw [heartbeatStep_lastHeartbeat]
  | some fb =>
      constructor
      · cases hC : (heartbeatStep inp.tCurrent { st with connectionAttempts := 0 }).1.isConnected <;>
          simp only [hC, Bool.false_eq_true, if_false, if_true, reduceIte] <;>
          rw [heartbeatTimes_append, heartbeatTimes_append, heartbeatTimes_append,
            heartbeatTimes_append, heartbeatTimes_append, heartbeatTimes_heartbeatStep,
            heartbeatTimes_fpsStep, heartbeatTimes_pacingStep] <;>
          simp [heartbeatTimes, heartbeatTime?]
      · rw [(fpsStep_fields _ _).2.1, heartbeatStep_lastHeartbeat]

theorem loopStep_heartbeat_cases (inp : LoopInput) (st : LoopState)
    (h1 : st.lastHeartbeat ≤ inp.tCurrent) (h2 : inp.tCurrent < ULONG_MOD) :
    (heartbeatTimes (loopStep inp st).2 = []
       ∧ (loopStep inp st).1.lastHeartbeat = st.lastHeartbeat)
    ∨ (heartbeatTimes (loopStep inp st).2 = [inp.tCurrent]
       ∧ st.lastHeartbeat + HEARTBEAT_INTERVAL ≤ inp.tCurrent
       ∧ (loopStep inp st).1.lastHeartbeat = inp.tCurrent) := by
  have hp := pollStep_fields inp.pollEvents st
  simp only [loopStep]
  cases hC : (pollStep inp.pollEvents st).1.isConnected
  · left
    simp only [hC, Bool.false_eq_true, if_false, reduceIte]
    constructor
    · rw [heartbeatTimes_append, heartbeatTimes_pollStep, heartbeatTimes_reconnectStep]
      rfl
    · rw [(reconnectStep_fields _ _).1, hp.2.1]
  · have hcs := connectedStep_heartbeat inp (pollStep inp.pollEvents st).1
    rw [hp.2.1] at hcs
    simp only [hC, if_true, reduceIte]
    by_cases hg : HEARTBEAT_INTERVAL ≤ usub inp.tCurrent st.lastHeartbeat
    · right
      simp only [if_pos hg] at hcs
      have hge : st.lastHeartbeat + HEARTBEAT_INTERVAL ≤ inp.tCurrent := by
        rw [usub_eq_sub h1 h2] at hg
        unfold HEARTBEAT_INTERVAL at *
        omega
      refine ⟨?_, hge, hcs.2⟩
      rw [heartbeatTimes_append, heartbeatTimes_pollStep, hcs.1]
      rfl
    · left
      simp only [if_neg hg] at hcs
      refine ⟨?_, hcs.2⟩
      rw [heartbeatTimes_append, heartbeatTimes_pollStep, hcs.1]
      rfl

/-! ### Gap separation along runs -/

theorem timesOK_mono : ∀ {l : List LoopInput} {a b : Nat},
    a ≤ b → timesOK b l = true → timesOK a l = true
  | [], _, _, _, _ => rfl
  | inp :: rest, a, b, hab, h => by
      simp only [timesOK, Bool.and_eq_true, decide_eq_true_eq] at h ⊢
      exact ⟨⟨le_trans hab h.1.1, h.1.2⟩, h.2⟩

theorem gapFrom_le {d : Nat} : ∀ {lb : Nat} {l : List Nat},
    GapFrom d lb l → ∀ x ∈ l, lb + d ≤ x
  | _, [], _, x, hx => by cases hx
  | lb, t :: rest, h, x, hx => by
      rcases List.mem_cons.mp hx with rfl | hx
      · exact h.1
      · have h1 := h.1
        have := gapFrom_le h.2 x hx
        omega

theorem gapFrom_pairwise {d : Nat} : ∀ {lb : Nat} {l : List Nat},
    GapFrom d lb l → List.Pairwise (fun a b => a + d ≤ b) l
  | _, [], _ => List.Pairwise.nil
  | _, _ :: _, h =>
      List.Pairwise.cons (fun x hx => gapFrom_le h.2 x hx) (gapFrom_pairwise h.2)

theorem heartbeat_gap_run : ∀ (inps : List LoopInput) (st : LoopState),
    timesOK st.lastHeartbeat inps = true →
    GapFrom HEARTBEAT_INTERVAL st.lastHeartbeat (heartbeatTimes (runLoop inps st).2)
  | [], st, _ => by simp [runLoop, heartbeatTimes, GapFrom]
  | inp :: rest, st, h => by
      simp only [timesOK, Bool.and_eq_true, decide_eq_true_eq] at h
      obtain ⟨⟨hlb, hM⟩, hrest⟩ := h
      simp only [runLoop]
      rw [heartbeatTimes_append]
      rcases loopStep_heartbeat_cases inp st hlb hM with ⟨he, hl⟩ | ⟨he, hge, hl⟩
      · rw [he, List.nil_append]
        have hok : timesOK (loopStep inp st).1.lastHeartbeat rest = true := by
          rw [hl]
          exact timesOK_mono hlb hrest
        have ih := heartbeat_gap_run rest (loopStep inp st).1 hok
        rw [hl] at ih
        exact ih
      · rw [he]
        refine ⟨hge, ?_⟩
        have hok : timesOK (loopStep inp st).1.lastHeartbeat rest = true := by
          rw [hl]
          exact hrest
        have ih := heartbeat_gap_run rest (loopStep inp st).1 hok
        rw [hl] at ih
        exact ih

/-! ### FPS-counter characterization -/

theorem fpsReports_sendLog_fps (st : LoopState) (v : ℚ) :
    fpsReports (sendLog st (LogMsg.fpsReport v)) = [v] := by
  unfold sendLog
  cases hC : st.isConnected <;> simp [hC, fpsReports, fpsReport?]

theorem fpsStep_char (t : Nat) (st : LoopState) :
    fpsReports (fpsStep t st).2
      = (if 1000 ≤ usub t st.lastFrameTime
         then [((st.frameCount + 1 : Nat) : ℚ) * 1000 / ((usub t st.lastFrameTime : Nat) : ℚ)]
         else [])
    ∧ (fpsStep t st).1.lastFrameTime
      = (if 1000 ≤ usub t st.lastFrameTime then t else st.lastFrameTime)
    ∧ (fpsStep t st).1.frameCount
      = (if 1000 ≤ usub t st.lastFrameTime then 0 else st.frameCount + 1)
    ∧ (fpsStep t st).1.fps
      = (if 1000 ≤ usub t st.lastFrameTime
         then ((st.frameCount + 1 : Nat) : ℚ) * 1000 / ((usub t st.lastFrameTime : Nat) : ℚ)
         else st.fps) := by
  simp only [fpsStep]
  split
  · simp_all [fpsReports_sendLog_fps]
  · simp_all [fpsReports, fpsReport?]

theorem connectedStep_fps (inp : LoopInput) (st : LoopState) :
    (inp.frame = none →
       fpsReports (connectedStep inp st).2 = []
       ∧ (connectedStep inp st).1.lastFrameTime = st.lastFrameTime)
    ∧ (∀ fb, inp.frame = some fb →
       fpsReports (connectedStep inp st).2
         = (if 1000 ≤ usub inp.tCurrent st.lastFrameTime
            then [((st.frameCount + 1 : Nat) : ℚ) * 1000
                   / ((usub inp.tCurrent st.lastFrameTime : Nat) : ℚ)]
            else [])
       ∧ (connectedStep inp st).1.lastFrameTime
         = (if 1000 ≤ usub inp.tCurrent st.lastFrameTime then inp.tCurrent else st.lastFrameTime)
       ∧ (connectedStep inp st).1.frameCount
         = (if 1000 ≤ usub inp.tCurrent st.lastFrameTime then 0 else st.frameCount + 1)
       ∧ (connectedStep inp st).1.fps
         = (if 1000 ≤ usub inp.tCurrent st.lastFrameTime
            then ((st.frameCount + 1 : Nat) : ℚ) * 1000
                   / ((usub inp.tCurrent st.lastFrameTime : Nat) : ℚ)
            else st.fps)) := by
  constructor
  · intro hf
    simp only [connectedStep, hf]
    constructor
    · rw [fpsReports_append, fpsReports_heartbeatStep]
      rfl
    · exact (heartbeatStep_fields _ _).2.2.2.1
  · intro fb hf
    simp only [connectedStep, hf]
    have hhb := heartbeatStep_fields inp.tCurrent { st with connectionAttempts := 0 }
    have hfc := fpsStep_char inp.tCurrent (heartbeatStep inp.tCurrent { st with connectionAttempts := 0 }).1
    rw [hhb.2.2.2.1, hhb.2.2.1, hhb.2.2.2.2] at hfc
    dsimp only at hfc
    refine ⟨?_, hfc.2.1, hfc.2.2.1, hfc.2.2.2⟩
    rw [fpsReports_append, fpsReports_append, fpsReports_append, fpsReports_append,
      fpsReports_append, fpsReports_heartbeatStep, fpsReports_pacingStep, hfc.1]
    cases hC : (heartbeatStep inp.tCurrent { st with connectionAttempts := 0 }).1.isConnected <;>
      simp [hC, fpsReports, fpsReport?]

theorem loopStep_fps_cases (inp : LoopInput) (st : LoopState)
    (h1 : st.lastFrameTime ≤ inp.tCurrent) (h2 : inp.tCurrent < ULONG_MOD) :
    (fpsReports (loopStep inp st).2 = []
       ∧ (loopStep inp st).1.lastFrameTime = st.lastFrameTime)
    ∨ (fpsReports (loopStep inp st).2 ≠ []
       ∧ st.lastFrameTime + 1000 ≤ inp.tCurrent
       ∧ (loopStep inp st).1.lastFrameTime = inp.tCurrent) := by
  have hp := pollStep_fields inp.pollEvents st
  simp only [loopStep]
  cases hC : (pollStep inp.pollEvents st).1.isConnected
  · left
    simp only [hC, Bool.false_eq_true, if_false, reduceIte]
    constructor
    · rw [fpsReports_append, fpsReports_pollStep, fpsReports_reconnectStep]
      rfl
    · rw [(reconnectStep_fields _ _).2.2.1, hp.2.2.2.1]
  · simp only [hC, if_true, reduceIte]
    have hcs := connectedStep_fps inp (pollStep inp.pollEvents st).1
    cases hf : inp.frame with
    | none =>
        left
        obtain ⟨he, hl⟩ := hcs.1 hf
        constructor
        · rw [fpsReports_append, fpsReports_pollStep, he]
          rfl
        · rw [hl, hp.2.2.2.1]
    | some fb =>
        obtain ⟨he, hl, _, _⟩ := hcs.2 fb hf
        rw [hp.2.2.2.1] at he hl
        by_cases hg : 1000 ≤ usub inp.tCurrent st.lastFrameTime
        · right
          rw [if_pos hg] at he hl
          have hge : st.lastFrameTime + 1000 ≤ inp.tCurrent := by
            rw [usub_eq_sub h1 h2] at hg
            omega
          refine ⟨?_, hge, hl⟩
          rw [fpsReports_append, fpsReports_pollStep, he]
          simp
        · left
          rw [if_neg hg] at he hl
          refine ⟨?_, hl⟩
          rw [fpsReports_append, fpsReports_pollStep, he]
          rfl

theorem fps_gap_run : ∀ (inps : List LoopInput) (st : LoopState),
    timesOK st.lastFrameTime inps = true →
    GapFrom 1000 st.lastFrameTime (fpsReportTimes inps st)
  | [], st, _ => by simp [fpsReportTimes, GapFrom]
  | inp :: rest, st, h => by
      simp only [timesOK, Bool.and_eq_true, decide_eq_true_eq] at h
      obtain ⟨⟨hlb, hM⟩, hrest⟩ := h
      simp only [fpsReportTimes]
      rcases loopStep_fps_cases inp st hlb hM with ⟨he, hl⟩ | ⟨he, hge, hl⟩
      · rw [if_pos he, List.nil_append]
        have hok : timesOK (loopStep inp st).1.lastFrameTime rest = true := by
          rw [hl]
          exact timesOK_mono hlb hrest
        have ih := fps_gap_run rest (loopStep inp st).1 hok
        rw [hl] at ih
        exact ih
      · rw [if_neg he]
        refine ⟨hge, ?_⟩
        have hok : timesOK (loopStep inp st).1.lastFrameTime rest = true := by
          rw [hl]
          exact hrest
        have ih := fps_gap_run rest (loopStep inp st).1 hok
        rw [hl] at ih
        exact ih

/-! ### Branch shape lemmas -/

theorem loopStep_disconnected_eq (inp : LoopInput) (st : LoopState)
    (hC : (pollStep inp.pollEvents st).1.isConnected = false) :
    loopStep inp st
      = ((reconnectStep inp (pollStep inp.pollEvents st).1).1,
         (pollStep inp.pollEvents st).2 ++ (reconnectStep inp (pollStep inp.pollEvents st).1).2) := by
  simp only [loopStep, hC, Bool.false_eq_true, if_false, reduceIte]

theorem loopStep_connected_eq (inp : LoopInput) (st : LoopState)
    (hC : (pollStep inp.pollEvents st).1.isConnected = true) :
    loopStep inp st
      = ((connectedStep inp (pollStep inp.pollEvents st).1).1,
         (pollStep inp.pollEvents st).2 ++ (connectedStep inp (pollStep inp.pollEvents st).1).2) := by
  simp only [loopStep, hC, if_true, reduceIte]

theorem connectWebSocket_actions {r : Bool} {st : LoopState} {a : Act}
    (h : a ∈ (connectWebSocket r st).2) :
    a = Act.connectAttempt ∨ (∃ m, a = Act.serialPrint m)
    ∨ (∃ s d t, a = Act.send (Msg.connection s d t)) := by
  unfold connectWebSocket at h
  cases r
  · simp at h
    rcases h with h | h
    · exact Or.inl h
    · exact Or.inr (Or.inl ⟨_, h⟩)
  · simp at h
    rcases h with h | h | h
    · exact Or.inl h
    · exact Or.inr (Or.inl ⟨_, h⟩)
    · exact Or.inr (Or.inr ⟨_, _, _, h⟩)

theorem reconnectStep_actions {inp : LoopInput} {st : LoopState} {a : Act}
    (h : a ∈ (reconnectStep inp st).2) :
    (∃ m, a = Act.serialPrint m) ∨ (∃ m, a = Act.send (Msg.log m))
    ∨ a = Act.connectAttempt ∨ (∃ s d t, a = Act.send (Msg.connection s d t))
    ∨ a = Act.delayMs 5000 ∨ a = Act.delayMs 30000 := by
  unfold reconnectStep at h
  split at h
  · simp only [List.mem_append, List.mem_singleton] at h
    rcases h with (h | h) | h
    · rcases sendLog_actions h with h | h
      · exact Or.inl ⟨_, h⟩
      · exact Or.inr (Or.inl ⟨_, h⟩)
    · rcases connectWebSocket_actions h with h | ⟨m, h⟩ | ⟨s, d, t, h⟩
      · exact Or.inr (Or.inr (Or.inl h))
      · exact Or.inl ⟨m, h⟩
      · exact Or.inr (Or.inr (Or.inr (Or.inl ⟨s, d, t, h⟩)))
    · exact Or.inr (Or.inr (Or.inr (Or.inr (Or.inl h))))
  · simp only [List.mem_append, List.mem_singleton] at h
    rcases h with h | h
    · rcases sendLog_actions h with h | h
      · exact Or.inl ⟨_, h⟩
      · exact Or.inr (Or.inl ⟨_, h⟩)
    · exact Or.inr (Or.inr (Or.inr (Or.inr (Or.inr h))))

theorem heartbeatStep_actions {t : Nat} {st : LoopState} {a : Act}
    (h : a ∈ (heartbeatStep t st).2) :
    a = Act.send (Msg.heartbeat t "ESP32CAM") := by
  unfold heartbeatStep at h
  split at h
  · simpa using h
  · simp at h

theorem fpsStep_actions {t : Nat} {st : LoopState} {a : Act}
    (h : a ∈ (fpsStep t st).2) :
    (∃ v, a = Act.serialPrint (LogMsg.fpsReport v))
    ∨ (∃ v, a = Act.send (Msg.log (LogMsg.fpsReport v))) := by
  simp only [fpsStep] at h
  split at h
  · rcases sendLog_actions h with h | h
    · exact Or.inl ⟨_, h⟩
    · exact Or.inr ⟨_, h⟩
  · simp at h

theorem pacingStep_actions {a b : Nat} {x : Act}
    (h : x ∈ pacingStep a b) : ∃ n, x = Act.delayMs n := by
  simp only [pacingStep] at h
  split at h
  · exact ⟨_, by simpa using h⟩
  · simp at h

theorem connectedStep_actions {inp : LoopInput} {st : LoopState} {a : Act}
    (h : a ∈ (connectedStep inp st).2) :
    (∃ t d, a = Act.send (Msg.heartbeat t d))
    ∨ (∃ m, a = Act.serialPrint m) ∨ (∃ m, a = Act.send (Msg.log m))
    ∨ a = Act.fbAcquire ∨ a = Act.fbReturn
    ∨ (∃ s w hh t q d, a = Act.send (Msg.frameMeta s w hh t q d))
    ∨ (∃ n, a = Act.sendBinary n) ∨ (∃ n, a = Act.delayMs n) := by
  simp only [connectedStep] at h
  cases hf : inp.frame with
  | none =>
      rw [hf] at h
      dsimp only at h
      rcases List.mem_append.mp h with h | h
      · exact Or.inl ⟨_, _, heartbeatStep_actions h⟩
      · exact Or.inr (Or.inl ⟨_, by simpa using h⟩)
  | some fb =>
      rw [hf] at h
      dsimp only at h
      simp only [List.mem_append] at h
      rcases h with ((((h | h) | h) | h) | h) | h
      · exact Or.inl ⟨_, _, heartbeatStep_actions h⟩
      · exact Or.inr (Or.inr (Or.inr (Or.inl (by simpa using h))))
      · rcases hsc : (heartbeatStep inp.tCurrent { st with connectionAttempts := 0 }).1.isConnected <;>
          rw [hsc] at h
        · simp at h
        · simp only [if_true, reduceIte, List.mem_cons, List.mem_singleton, List.not_mem_nil,
            or_false] at h
          rcases h with h | h
          · exact Or.inr (Or.inr (Or.inr (Or.inr (Or.inr (Or.inl ⟨_, _, _, _, _, _, h⟩)))))
          · exact Or.inr (Or.inr (Or.inr (Or.inr (Or.inr (Or.inr (Or.inl ⟨_, h⟩))))))
      · exact Or.inr (Or.inr (Or.inr (Or.inr (Or.inl (by simpa using h)))))
      · rcases fpsStep_actions h with ⟨v, h⟩ | ⟨v, h⟩
        · exact Or.inr (Or.inl ⟨_, h⟩)
        · exact Or.inr (Or.inr (Or.inl ⟨_, h⟩))
      · exact Or.inr (Or.inr (Or.inr (Or.inr (Or.inr (Or.inr (Or.inr (pacingStep_actions h)))))))

/-! ### Reconnect branch behavior -/

theorem reconnectStep_lt (inp : LoopInput) (st : LoopState)
    (hlt : st.connectionAttempts < MAX_CONNECTION_ATTEMPTS) :
    (reconnectStep inp st).1.connectionAttempts = st.connectionAttempts + 1
    ∧ Act.connectAttempt ∈ (reconnectStep inp st).2
    ∧ Act.delayMs 5000 ∈ (reconnectStep inp st).2 := by
  unfold reconnectStep
  rw [if_pos hlt]
  refine ⟨?_, ?_, ?_⟩
  · unfold connectWebSocket
    cases hR : inp.connectResult <;> simp
  · unfold connectWebSocket
    cases hR : inp.connectResult <;> simp
  · simp

theorem reconnectStep_ge (inp : LoopInput) (st : LoopState)
    (hge : MAX_CONNECTION_ATTEMPTS ≤ st.connectionAttempts) :
    (reconnectStep inp st).1.connectionAttempts = 0
    ∧ Act.delayMs 30000 ∈ (reconnectStep inp st).2
    ∧ Act.connectAttempt ∉ (reconnectStep inp st).2 := by
  unfold reconnectStep
  rw [if_neg (Nat.not_lt.mpr hge)]
  refine ⟨rfl, by simp, ?_⟩
  intro h
  rcases List.mem_append.mp h with h | h
  · rcases sendLog_actions h with h | h <;> simp at h
  · simp at h

theorem failing_step (inp : LoopInput) (st : LoopState)
    (hc : st.isConnected = false) (he : inp.pollEvents = [])
    (hr : inp.connectResult = false)
    (hlt : st.connectionAttempts < MAX_CONNECTION_ATTEMPTS) :
    (loopStep inp st).1.connectionAttempts = st.connectionAttempts + 1
    ∧ (loopStep inp st).1.isConnected = false := by
  have hp : pollStep inp.pollEvents st = (st, []) := by rw [he]; rfl
  have hC : (pollStep inp.pollEvents st).1.isConnected = false := by rw [hp]; exact hc
  rw [loopStep_disconnected_eq inp st hC, hp]
  unfold reconnectStep
  rw [if_pos hlt]
  unfold connectWebSocket
  rw [hr]
  simp

theorem failing_run : ∀ (inps : List LoopInput) (st : LoopState),
    st.isConnected = false →
    st.connectionAttempts + inps.length ≤ MAX_CONNECTION_ATTEMPTS →
    (∀ i ∈ inps, i.pollEvents = [] ∧ i.connectResult = false) →
    (runLoop inps st).1.connectionAttempts = st.connectionAttempts + inps.length
    ∧ (runLoop inps st).1.isConnected = false
  | [], st, hc, _, _ => by simp [runLoop, hc]
  | inp :: rest, st, hc, hlen, hall => by
      obtain ⟨hpe, hcr⟩ := hall inp (List.mem_cons_self _ _)
      have hlt : st.connectionAttempts < MAX_CONNECTION_ATTEMPTS := by
        simp only [List.length_cons] at hlen
        omega
      have hs := failing_step inp st hc hpe hcr hlt
      simp only [runLoop]
      have ih := failing_run rest (loopStep inp st).1 hs.2
        (by rw [hs.1]; simp only [List.length_cons] at hlen; omega)
        (fun i hi => hall i (List.mem_cons_of_mem _ hi))
      refine ⟨?_, ih.2⟩
      rw [ih.1, hs.1]
      simp only [List.length_cons]
      omega

/-- Claim C1: in a disconnected loop iteration with the attempt counter below
the cap of 5, the loop makes one connect attempt, increments the counter by
one and waits the short 5000 ms backoff; in a disconnected iteration with the
counter at the cap it resets the counter to zero, waits the long 30000 ms
backoff and makes no connect attempt; the long backoff strictly exceeds the
short one; and after 5 consecutive connect failures starting from counter 0
the counter stands at 5, so the 5th failure is what makes the next
disconnected iteration take the long backoff and the reset to 0. -/
theorem C1_reconnect_backoff_policy :
    (∀ (inp : LoopInput) (st : LoopState),
        (pollStep inp.pollEvents st).1.isConnected = false →
        (pollStep inp.pollEvents st).1.connectionAttempts < MAX_CONNECTION_ATTEMPTS →
        Act.connectAttempt ∈ (loopStep inp st).2
        ∧ (loopStep inp st).1.connectionAttempts
            = (pollStep inp.pollEvents st).1.connectionAttempts + 1
        ∧ Act.delayMs 5000 ∈ (loopStep inp st).2)
    ∧ (∀ (inp : LoopInput) (st : LoopState),
        (pollStep inp.pollEvents st).1.isConnected = false →
        MAX_CONNECTION_ATTEMPTS ≤ (pollStep inp.pollEvents st).1.connectionAttempts →
        (loopStep inp st).1.connectionAttempts = 0
        ∧ Act.delayMs 30000 ∈ (loopStep inp st).2
        ∧ Act.connectAttempt ∉ (loopStep inp st).2)
    ∧ 5000 < 30000
    ∧ (∀ (inps : List LoopInput) (st : LoopState),
        st.isConnected = false →
        st.connectionAttempts + inps.length ≤ MAX_CONNECTION_ATTEMPTS →
        (∀ i ∈ inps, i.pollEvents = [] ∧ i.connectResult = false) →
        (runLoop inps st).1.connectionAttempts = st.connectionAttempts + inps.length
        ∧ (runLoop inps st).1.isConnected = false) := by
  refine ⟨?_, ?_, by omega, failing_run⟩
  · intro inp st hC hlt
    have h := reconnectStep_lt inp (pollStep inp.pollEvents st).1 hlt
    rw [loopStep_disconnected_eq inp st hC]
    exact ⟨List.mem_append.mpr (Or.inr h.2.1), h.1, List.mem_append.mpr (Or.inr h.2.2)⟩
  · intro inp st hC hge
    have h := reconnectStep_ge inp (pollStep inp.pollEvents st).1 hge
    rw [loopStep_disconnected_eq inp st hC]
    refine ⟨h.1, List.mem_append.mpr (Or.inr h.2.1), ?_⟩
    intro hmem
    rcases List.mem_append.mp hmem with hm | hm
    · rcases pollStep_actions hm with ⟨s, hm | hm⟩ <;> simp at hm
    · exact h.2.2 hm

/-- Witness for C1: the 1st failure from a fresh state waits the short
backoff, the 6th disconnected iteration (counter at 5) waits the long one,
and a run of 5 consecutive failures drives the counter from 0 to 5. -/
theorem C1_reconnect_backoff_policy_witness :
    Act.delayMs 5000 ∈ (loopStep ⟨[], false, none, 0, 0, 0⟩ ⟨false, 0, 0, 0, 0, 0⟩).2
    ∧ Act.delayMs 30000 ∈ (loopStep ⟨[], false, none, 0, 0, 0⟩ ⟨false, 5, 0, 0, 0, 0⟩).2
    ∧ (runLoop (List.replicate 5 ⟨[], false, none, 0, 0, 0⟩)
        ⟨false, 0, 0, 0, 0, 0⟩).1.connectionAttempts = 5 := by
  refine ⟨?_, ?_, ?_⟩
  · exact (C1_reconnect_backoff_policy.1 ⟨[], false, none, 0, 0, 0⟩ ⟨false, 0, 0, 0, 0, 0⟩
      (by decide) (by decide)).2.2
  · exact (C1_reconnect_backoff_policy.2.1 ⟨[], false, none, 0, 0, 0⟩ ⟨false, 5, 0, 0, 0, 0⟩
      (by decide) (by decide)).2.1
  · have h := (C1_reconnect_backoff_policy.2.2.2 (List.replicate 5 ⟨[], false, none, 0, 0, 0⟩)
      ⟨false, 0, 0, 0, 0, 0⟩ (by decide) (by decide) (by decide)).1
    simpa using h

/-! ### Connected branch behavior -/

theorem connectedStep_attempts (inp : LoopInput) (st : LoopState) :
    (connectedStep inp st).1.connectionAttempts = 0 := by
  simp only [connectedStep]
  cases hf : inp.frame with
  | none => rw [(heartbeatStep_fields _ _).2.1]
  | some fb => rw [(fpsStep_fields _ _).2.2, (heartbeatStep_fields _ _).2.1]

/-- The concrete run used to analyse claim C2: three failed connect attempts
followed by a successful one, starting from a fresh disconnected state. -/
def c2Run : LoopState × List Act :=
  runLoop [⟨[], false, none, 0, 0, 0⟩, ⟨[], false, none, 0, 0, 0⟩,
    ⟨[], false, none, 0, 0, 0⟩, ⟨[], true, none, 0, 0, 0⟩] ⟨false, 0, 0, 0, 0, 0⟩

/-- The fifth iteration input for the C2 analysis: the server closes the
socket, delivered by `client.poll()` before any connected iteration ran. -/
def c2Inp5 : LoopInput := ⟨[WsEvent.connectionClosed], false, none, 0, 0, 0⟩

/-- Counterexample to claim C2 as stated: after the successful connect of the
4th iteration the device is connected but the attempt counter stands at 4
(the successful attempt itself incremented it, and the reset at the top of
the connected path has not run yet); when the connection closes during the
next poll, the 5th iteration makes a further connect attempt while the
counter still reads 4, not 0. -/
theorem C2_counterexample :
    c2Run.1.isConnected = true
    ∧ c2Run.1.connectionAttempts = 4
    ∧ (pollStep c2Inp5.pollEvents c2Run.1).1.isConnected = false
    ∧ (pollStep c2Inp5.pollEvents c2Run.1).1.connectionAttempts = 4
    ∧ Act.connectAttempt ∈ (loopStep c2Inp5 c2Run.1).2 := by
  decide

/-- Claim C2 (amended): a loop iteration that still polls as connected
resets the attempt counter to zero before anything else and makes no
connect attempt; so the counter reads zero before any further connect
attempt made from a later, disconnected iteration.  (As stated the claim
fails: if the connection closes during the very next poll after a
successful connect, the next connect attempt still sees the incremented,
never-reset counter; see the counterexample.) -/
theorem C2_connected_iteration_resets (inp : LoopInput) (st : LoopState)
    (hC : (pollStep inp.pollEvents st).1.isConnected = true) :
    (loopStep inp st).1.connectionAttempts = 0
    ∧ Act.connectAttempt ∉ (loopStep inp st).2 := by
  rw [loopStep_connected_eq inp st hC]
  refine ⟨connectedStep_attempts _ _, ?_⟩
  intro h
  rcases List.mem_append.mp h with h | h
  · rcases pollStep_actions h with ⟨s, h | h⟩ <;> simp at h
  · rcases connectedStep_actions h with ⟨t, d, h⟩ | ⟨m, h⟩ | ⟨m, h⟩ | h | h
      | ⟨s, w, hh, t, q, d, h⟩ | ⟨n, h⟩ | ⟨n, h⟩ <;> simp at h

/-- Witness for the amended C2: a concrete connected iteration zeroes the
counter that the preceding successful attempt left at 4. -/
theorem C2_connected_iteration_resets_witness :
    (loopStep ⟨[], false, none, 0, 0, 0⟩ ⟨true, 4, 0, 0, 0, 0⟩).1.connectionAttempts = 0 :=
  (C2_connected_iteration_resets ⟨[], false, none, 0, 0, 0⟩ ⟨true, 4, 0, 0, 0, 0⟩ (by decide)).1

/-! ### Trace equations for the connected branch -/

theorem connectedStep_none_trace (inp : LoopInput) (st : LoopState)
    (hf : inp.frame = none) :
    (connectedStep inp st).2
      = (heartbeatStep inp.tCurrent { st with connectionAttempts := 0 }).2
        ++ [Act.serialPrint (LogMsg.text "Camera capture failed")] := by
  simp only [connectedStep, hf]

theorem connectedStep_some_trace (inp : LoopInput) (st : LoopState) (fb : Frame)
    (hf : inp.frame = some fb) :
    (connectedStep inp st).2
      = (heartbeatStep inp.tCurrent { st with connectionAttempts := 0 }).2
        ++ [Act.fbAcquire]
        ++ (if (heartbeatStep inp.tCurrent { st with connectionAttempts := 0 }).1.isConnected
            then [Act.send (Msg.frameMeta fb.len fb.width fb.height inp.tMeta
                    (heartbeatStep inp.tCurrent { st with connectionAttempts := 0 }).1.fps
                    "ESP32CAM"),
                  Act.sendBinary fb.len]
            else [])
        ++ [Act.fbReturn]
        ++ (fpsStep inp.tCurrent (heartbeatStep inp.tCurrent
              { st with connectionAttempts := 0 }).1).2
        ++ pacingStep inp.tCurrent inp.tPacing := by
  simp only [connectedStep, hf]

/-- Claim C8: a loop iteration that polls as disconnected delegates entirely
to the reconnect handler and returns early: no frame is acquired, no frame
metadata, binary frame payload or heartbeat is sent. -/
theorem C8_disconnected_iteration (inp : LoopInput) (st : LoopState)
    (hC : (pollStep inp.pollEvents st).1.isConnected = false) :
    loopStep inp st
      = ((reconnectStep inp (pollStep inp.pollEvents st).1).1,
         (pollStep inp.pollEvents st).2 ++ (reconnectStep inp (pollStep inp.pollEvents st).1).2)
    ∧ Act.fbAcquire ∉ (loopStep inp st).2
    ∧ (∀ s w hh t q d, Act.send (Msg.frameMeta s w hh t q d) ∉ (loopStep inp st).2)
    ∧ (∀ n, Act.sendBinary n ∉ (loopStep inp st).2)
    ∧ (∀ t d, Act.send (Msg.heartbeat t d) ∉ (loopStep inp st).2) := by
  have ht : (loopStep inp st).2
      = (pollStep inp.pollEvents st).2 ++ (reconnectStep inp (pollStep inp.pollEvents st).1).2 := by
    rw [loopStep_disconnected_eq inp st hC]
  refine ⟨loopStep_disconnected_eq inp st hC, ?_, ?_, ?_, ?_⟩
  · intro h
    rw [ht] at h
    rcases List.mem_append.mp h with h | h
    · rcases pollStep_actions h with ⟨s, h | h⟩ <;> simp at h
    · rcases reconnectStep_actions h with ⟨m, h⟩ | ⟨m, h⟩ | h | ⟨s, d, t, h⟩ | h | h <;> simp at h
  · intro s w hh t q d h
    rw [ht] at h
    rcases List.mem_append.mp h with h | h
    · rcases pollStep_actions h with ⟨s', h | h⟩ <;> simp at h
    · rcases reconnectStep_actions h with ⟨m, h⟩ | ⟨m, h⟩ | h | ⟨s', d', t', h⟩ | h | h <;> simp at h
  · intro n h
    rw [ht] at h
    rcases List.mem_append.mp h with h | h
    · rcases pollStep_actions h with ⟨s', h | h⟩ <;> simp at h
    · rcases reconnectStep_actions h with ⟨m, h⟩ | ⟨m, h⟩ | h | ⟨s', d', t', h⟩ | h | h <;> simp at h
  · intro t d h
    rw [ht] at h
    rcases List.mem_append.mp h with h | h
    · rcases pollStep_actions h with ⟨s', h | h⟩ <;> simp at h
    · rcases reconnectStep_actions h with ⟨m, h⟩ | ⟨m, h⟩ | h | ⟨s', d', t', h⟩ | h | h <;> simp at h

/-- Witness for C8: a concrete disconnected iteration acquires no frame and
sends no binary payload. -/
theorem C8_disconnected_iteration_witness :
    Act.fbAcquire ∉ (loopStep ⟨[], false, none, 0, 0, 0⟩ ⟨false, 2, 0, 0, 0, 0⟩).2
    ∧ Act.sendBinary 10 ∉ (loopStep ⟨[], false, none, 0, 0, 0⟩ ⟨false, 2, 0, 0, 0, 0⟩).2 :=
  ⟨(C8_disconnected_iteration ⟨[], false, none, 0, 0, 0⟩ ⟨false, 2, 0, 0, 0, 0⟩
      (by decide)).2.1,
   (C8_disconnected_iteration ⟨[], false, none, 0, 0, 0⟩ ⟨false, 2, 0, 0, 0, 0⟩
      (by decide)).2.2.2.1 10⟩

/-! ### Frame acquire/release balance -/

theorem fb_count_zero {l : List Act}
    (h : ∀ a ∈ l, a ≠ Act.fbAcquire ∧ a ≠ Act.fbReturn) :
    l.count Act.fbAcquire = 0 ∧ l.count Act.fbReturn = 0 := by
  constructor <;> rw [List.count_eq_zero] <;> intro hm
  · exact (h _ hm).1 rfl
  · exact (h _ hm).2 rfl

theorem fb_counts_pollStep (evs : List WsEvent) (st : LoopState) :
    (pollStep evs st).2.count Act.fbAcquire = 0
    ∧ (pollStep evs st).2.count Act.fbReturn = 0 := by
  refine fb_count_zero fun a ha => ?_
  rcases pollStep_actions ha with ⟨s, h | h⟩ <;> subst h <;> exact ⟨by simp, by simp⟩

theorem fb_counts_reconnectStep (inp : LoopInput) (st : LoopState) :
    (reconnectStep inp st).2.count Act.fbAcquire = 0
    ∧ (reconnectStep inp st).2.count Act.fbReturn = 0 := by
  refine fb_count_zero fun a ha => ?_
  rcases reconnectStep_actions ha with ⟨m, h⟩ | ⟨m, h⟩ | h | ⟨s, d, t, h⟩ | h | h <;>
    subst h <;> exact ⟨by simp, by simp⟩

theorem fb_counts_heartbeatStep (t : Nat) (st : LoopState) :
    (heartbeatStep t st).2.count Act.fbAcquire = 0
    ∧ (heartbeatStep t st).2.count Act.fbReturn = 0 := by
  refine fb_count_zero fun a ha => ?_
  have h := heartbeatStep_actions ha
  subst h
  exact ⟨by simp, by simp⟩

theorem fb_counts_fpsStep (t : Nat) (st : LoopState) :
    (fpsStep t st).2.count Act.fbAcquire = 0
    ∧ (fpsStep t st).2.count Act.fbReturn = 0 := by
  refine fb_count_zero fun a ha => ?_
  rcases fpsStep_actions ha with ⟨v, h⟩ | ⟨v, h⟩ <;> subst h <;> exact ⟨by simp, by simp⟩

theorem fb_counts_pacingStep (a b : Nat) :
    (pacingStep a b).count Act.fbAcquire = 0
    ∧ (pacingStep a b).count Act.fbReturn = 0 := by
  refine fb_count_zero fun x hx => ?_
  obtain ⟨n, h⟩ := pacingStep_actions hx
  subst h
  exact ⟨by simp, by simp⟩

/-- Claim C4: in every loop iteration, the number of frame-buffer releases
equals the number of successful frame acquisitions (each at most one):
the buffer is released exactly once on every path that acquired it --
whether the sends happened or not -- and never released otherwise. -/
theorem C4_frame_release_balance (inp : LoopInput) (st : LoopState) :
    (loopStep inp st).2.count Act.fbReturn = (loopStep inp st).2.count Act.fbAcquire
    ∧ (loopStep inp st).2.count Act.fbAcquire ≤ 1 := by
  cases hC : (pollStep inp.pollEvents st).1.isConnected
  · have ht : (loopStep inp st).2
        = (pollStep inp.pollEvents st).2
          ++ (reconnectStep inp (pollStep inp.pollEvents st).1).2 := by
      rw [loopStep_disconnected_eq inp st hC]
    rw [ht, List.count_append, List.count_append,
      (fb_counts_pollStep _ _).1, (fb_counts_pollStep _ _).2,
      (fb_counts_reconnectStep _ _).1, (fb_counts_reconnectStep _ _).2]
    exact ⟨rfl, by omega⟩
  · have ht : (loopStep inp st).2
        = (pollStep inp.pollEvents st).2
          ++ (connectedStep inp (pollStep inp.pollEvents st).1).2 := by
      rw [loopStep_connected_eq inp st hC]
    cases hf : inp.frame with
    | none =>
        rw [ht, connectedStep_none_trace _ _ hf, List.count_append, List.count_append,
          List.count_append, List.count_append,
          (fb_counts_pollStep _ _).1, (fb_counts_pollStep _ _).2,
          (fb_counts_heartbeatStep _ _).1, (fb_counts_heartbeatStep _ _).2]
        exact ⟨by decide, by decide⟩
    | some fb =>
        have hsend : ∀ c : Bool,
            (if c then [Act.send (Msg.frameMeta fb.len fb.width fb.height inp.tMeta
                (heartbeatStep inp.tCurrent
                  { (pollStep inp.pollEvents st).1 with connectionAttempts := 0 }).1.fps
                "ESP32CAM"), Act.sendBinary fb.len] else []).count Act.fbAcquire = 0
            ∧ (if c then [Act.send (Msg.frameMeta fb.len fb.width fb.height inp.tMeta
                (heartbeatStep inp.tCurrent
                  { (pollStep inp.pollEvents st).1 with connectionAttempts := 0 }).1.fps
                "ESP32CAM"), Act.sendBinary fb.len] else []).count Act.fbReturn = 0 := by
          intro c
          cases c
          · exact ⟨rfl, rfl⟩
          · refine fb_count_zero fun a ha => ?_
            simp only [if_true, reduceIte, List.mem_cons, List.mem_singleton,
              List.not_mem_nil, or_false] at ha
            rcases ha with h | h <;> subst h <;> exact ⟨by simp, by simp⟩
        rw [ht, connectedStep_some_trace _ _ fb hf]
        simp only [List.count_append]
        rw [(fb_counts_pollStep _ _).1, (fb_counts_pollStep _ _).2,
          (fb_counts_heartbeatStep _ _).1, (fb_counts_heartbeatStep _ _).2,
          (fb_counts_fpsStep _ _).1, (fb_counts_fpsStep _ _).2,
          (fb_counts_pacingStep _ _).1, (fb_counts_pacingStep _ _).2,
          (hsend _).1, (hsend _).2]
        exact ⟨by decide, by decide⟩

/-! ### Metadata/binary ordering and pacing -/

/-- Claim C5: in a connected iteration that captured a frame, the trace
contains the metadata message -- reporting exactly the frame size, width
and height -- immediately followed by the binary payload of that size,
with nothing in between. -/
theorem C5_metadata_precedes_binary (inp : LoopInput) (st : LoopState) (fb : Frame)
    (hC : (pollStep inp.pollEvents st).1.isConnected = true)
    (hf : inp.frame = some fb) :
    ∃ l1 l2 q,
      (loopStep inp st).2
        = l1 ++ [Act.send (Msg.frameMeta fb.len fb.width fb.height inp.tMeta q "ESP32CAM"),
                 Act.sendBinary fb.len] ++ l2 := by
  have hc2 : (heartbeatStep inp.tCurrent
      { (pollStep inp.pollEvents st).1 with connectionAttempts := 0 }).1.isConnected = true := by
    rw [(heartbeatStep_fields _ _).1]
    exact hC
  rw [loopStep_connected_eq inp st hC]
  refine ⟨(pollStep inp.pollEvents st).2
      ++ (heartbeatStep inp.tCurrent
            { (pollStep inp.pollEvents st).1 with connectionAttempts := 0 }).2
      ++ [Act.fbAcquire],
    [Act.fbReturn]
      ++ (fpsStep inp.tCurrent (heartbeatStep inp.tCurrent
            { (pollStep inp.pollEvents st).1 with connectionAttempts := 0 }).1).2
      ++ pacingStep inp.tCurrent inp.tPacing,
    (heartbeatStep inp.tCurrent
      { (pollStep inp.pollEvents st).1 with connectionAttempts := 0 }).1.fps, ?_⟩
  rw [connectedStep_some_trace _ _ fb hf, if_pos hc2]
  simp [List.append_assoc]

/-- Witness for C5: the metadata/binary pair of a concrete connected
iteration. -/
theorem C5_metadata_precedes_binary_witness :
    ∃ l1 l2 q,
      (loopStep ⟨[], false, some ⟨1234, 800, 600⟩, 100, 105, 110⟩ ⟨true, 0, 0, 0, 0, 0⟩).2
        = l1 ++ [Act.send (Msg.frameMeta 1234 800 600 105 q "ESP32CAM"),
                 Act.sendBinary 1234] ++ l2 :=
  C5_metadata_precedes_binary ⟨[], false, some ⟨1234, 800, 600⟩, 100, 105, 110⟩
    ⟨true, 0, 0, 0, 0, 0⟩ ⟨1234, 800, 600⟩ (by decide) rfl

theorem pacingStep_empty (a b : Nat) (hab : a ≤ b) (_hb : b < ULONG_MOD)
    (hd : b - a + 33 < ULONG_MOD) :
    pacingStep a b = [] := by
  have hM : ULONG_MOD = 4294967296 := rfl
  rw [hM] at hd
  have hcond : ¬ ((b + 4294967296 - (a + 4294967296 - 33) % 4294967296) % 4294967296 < 33) := by
    omega
  simp only [pacingStep, usub, hM, if_neg hcond]

/-- Claim C3 (evaluated on the code): the pacing block computes
`elapsed = millis() - (currentTime - frameDuration)`, which is the true
elapsed time PLUS `frameDuration`; hence `elapsed < frameDuration` never
holds (absent a 49-day timer wrap inside one iteration) and the loop never
sleeps at all -- not `max(0, 33 - e)` as the claim states.  No other
`delay` exists on the connected path. -/
theorem C3_pacing_never_sleeps (inp : LoopInput) (st : LoopState) (fb : Frame)
    (hC : (pollStep inp.pollEvents st).1.isConnected = true)
    (hf : inp.frame = some fb)
    (hab : inp.tCurrent ≤ inp.tPacing)
    (hb : inp.tPacing < ULONG_MOD)
    (hd : inp.tPacing - inp.tCurrent + 33 < ULONG_MOD) :
    ∀ n, Act.delayMs n ∉ (loopStep inp st).2 := by
  intro n h
  rw [loopStep_connected_eq inp st hC] at h
  rcases List.mem_append.mp h with h | h
  · rcases pollStep_actions h with ⟨s, h | h⟩ <;> simp at h
  · rw [connectedStep_some_trace _ _ fb hf, pacingStep_empty _ _ hab hb hd] at h
    simp only [List.append_nil, List.mem_append] at h
    rcases h with (((h | h) | h) | h) | h
    · have := heartbeatStep_actions h
      simp at this
    · simp at h
    · rcases hsc : (heartbeatStep inp.tCurrent
          { (pollStep inp.pollEvents st).1 with connectionAttempts := 0 }).1.isConnected <;>
        rw [hsc] at h
      · simp at h
      · simp only [if_true, reduceIte, List.mem_cons, List.mem_singleton,
          List.not_mem_nil, or_false] at h
        rcases h with h | h <;> simp at h
    · simp at h
    · rcases fpsStep_actions h with ⟨v, h⟩ | ⟨v, h⟩ <;> simp at h

/-- Witness for C3: a concrete connected frame iteration that took 0 ms
(tPacing = tCurrent), where the claim demands a 33 ms sleep; the code
performs no delay at all. -/
theorem C3_pacing_never_sleeps_witness :
    Act.delayMs 33 ∉ (loopStep ⟨[], false, some ⟨10, 4, 3⟩, 1000, 1002, 1000⟩
      ⟨true, 0, 0, 0, 0, 0⟩).2 :=
  C3_pacing_never_sleeps ⟨[], false, some ⟨10, 4, 3⟩, 1000, 1002, 1000⟩
    ⟨true, 0, 0, 0, 0, 0⟩ ⟨10, 4, 3⟩ (by decide) rfl (by decide) (by decide) (by decide) 33

/-! ### Heartbeat and FPS claims -/

/-- Claim C6: in a connected iteration a heartbeat is sent exactly when at
least 30000 ms elapsed since the last recorded heartbeat timestamp, the sent
heartbeat carries the current time which becomes the new recorded timestamp;
and along any run with monotone, non-wrapping clock reads, any two heartbeat
timestamps differ by at least 30000 ms -- at most one heartbeat per
30-second window. -/
theorem C6_heartbeat_window :
    (∀ (inp : LoopInput) (st : LoopState),
        (pollStep inp.pollEvents st).1.isConnected = true →
        st.lastHeartbeat ≤ inp.tCurrent → inp.tCurrent < ULONG_MOD →
        heartbeatTimes (loopStep inp st).2
          = (if st.lastHeartbeat + HEARTBEAT_INTERVAL ≤ inp.tCurrent
             then [inp.tCurrent] else [])
        ∧ (loopStep inp st).1.lastHeartbeat
          = (if st.lastHeartbeat + HEARTBEAT_INTERVAL ≤ inp.tCurrent
             then inp.tCurrent else st.lastHeartbeat))
    ∧ (∀ (inps : List LoopInput) (st : LoopState),
        timesOK st.lastHeartbeat inps = true →
        List.Pairwise (fun a b => a + HEARTBEAT_INTERVAL ≤ b)
          (heartbeatTimes (runLoop inps st).2)) := by
  constructor
  · intro inp st hC hle hM
    have hiff : (HEARTBEAT_INTERVAL ≤ usub inp.tCurrent st.lastHeartbeat)
        ↔ (st.lastHeartbeat + HEARTBEAT_INTERVAL ≤ inp.tCurrent) := by
      rw [usub_eq_sub hle hM]
      omega
    have hcs := connectedStep_heartbeat inp (pollStep inp.pollEvents st).1
    rw [(pollStep_fields inp.pollEvents st).2.1] at hcs
    simp only [hiff] at hcs
    rw [loopStep_connected_eq inp st hC]
    exact ⟨by rw [heartbeatTimes_append, heartbeatTimes_pollStep, List.nil_append, hcs.1],
      hcs.2⟩
  · intro inps st h
    exact gapFrom_pairwise (heartbeat_gap_run inps st h)

/-- Witness for C6: with the last heartbeat recorded at 0, a connected
iteration at 31000 ms sends exactly one heartbeat stamped 31000 and records
it; and the pairwise separation holds on a concrete two-iteration run. -/
theorem C6_heartbeat_window_witness :
    heartbeatTimes (loopStep ⟨[], false, none, 31000, 0, 0⟩ ⟨true, 0, 0, 0, 0, 0⟩).2 = [31000]
    ∧ (loopStep ⟨[], false, none, 31000, 0, 0⟩ ⟨true, 0, 0, 0, 0, 0⟩).1.lastHeartbeat = 31000
    ∧ List.Pairwise (fun a b => a + HEARTBEAT_INTERVAL ≤ b)
        (heartbeatTimes (runLoop [⟨[], false, none, 31000, 0, 0⟩, ⟨[], false, none, 40000, 0, 0⟩]
          ⟨true, 0, 0, 0, 0, 0⟩).2) := by
  have h := C6_heartbeat_window.1 ⟨[], false, none, 31000, 0, 0⟩ ⟨true, 0, 0, 0, 0, 0⟩
    (by decide) (by decide) (by decide)
  have h2 := C6_heartbeat_window.2 [⟨[], false, none, 31000, 0, 0⟩, ⟨[], false, none, 40000, 0, 0⟩]
    ⟨true, 0, 0, 0, 0, 0⟩ (by decide)
  refine ⟨?_, ?_, h2⟩
  · rw [h.1, if_pos (by decide)]
  · rw [h.2, if_pos (by decide)]

/-- Claim C7: in a connected iteration that captured a frame, the FPS
counter reports exactly when at least 1000 ms elapsed since the window
start; the reported value is frame count (including the current frame)
times 1000 divided by the elapsed milliseconds of the window; after a
report the frame count is zeroed and the window start moves to the
current time; and report times along any run with monotone non-wrapping
clock reads are at least 1000 ms apart -- at most one report per window. -/
theorem C7_fps_counter :
    (∀ (inp : LoopInput) (st : LoopState) (fb : Frame),
        (pollStep inp.pollEvents st).1.isConnected = true →
        inp.frame = some fb →
        st.lastFrameTime ≤ inp.tCurrent → inp.tCurrent < ULONG_MOD →
        fpsReports (loopStep inp st).2
          = (if st.lastFrameTime + 1000 ≤ inp.tCurrent
             then [((st.frameCount + 1 : Nat) : ℚ) * 1000
                    / ((inp.tCurrent - st.lastFrameTime : Nat) : ℚ)]
             else [])
        ∧ (st.lastFrameTime + 1000 ≤ inp.tCurrent →
             (loopStep inp st).1.frameCount = 0
             ∧ (loopStep inp st).1.lastFrameTime = inp.tCurrent
             ∧ (loopStep inp st).1.fps
               = ((st.frameCount + 1 : Nat) : ℚ) * 1000
                  / ((inp.tCurrent - st.lastFrameTime : Nat) : ℚ)))
    ∧ (∀ (inps : List LoopInput) (st : LoopState),
        timesOK st.lastFrameTime inps = true →
        List.Pairwise (fun a b => a + 1000 ≤ b) (fpsReportTimes inps st)) := by
  constructor
  · intro inp st fb hC hf hle hM
    have hp := pollStep_fields inp.pollEvents st
    have hcs := (connectedStep_fps inp (pollStep inp.pollEvents st).1).2 fb hf
    rw [hp.2.2.2.1, hp.2.2.1, hp.2.2.2.2, usub_eq_sub hle hM] at hcs
    have hiff : (1000 ≤ inp.tCurrent - st.lastFrameTime)
        ↔ (st.lastFrameTime + 1000 ≤ inp.tCurrent) := by omega
    simp only [hiff] at hcs
    rw [loopStep_connected_eq inp st hC]
    refine ⟨?_, fun hg => ?_⟩
    · rw [fpsReports_append, fpsReports_pollStep, List.nil_append, hcs.1]
    · exact ⟨by rw [hcs.2.2.1, if_pos hg], by rw [hcs.2.1, if_pos hg],
        by rw [hcs.2.2.2, if_pos hg]⟩
  · intro inps st h
    exact gapFrom_pairwise (fps_gap_run inps st h)

/-- Witness for C7: a window of 29 earlier frames plus the current one over
1000 ms reports exactly 30 fps, zeroes the count and moves the window. -/
theorem C7_fps_counter_witness :
    fpsReports (loopStep ⟨[], false, some ⟨10, 2, 2⟩, 1000, 0, 1000⟩
        ⟨true, 0, 0, 29, 0, 0⟩).2 = [(30 : ℚ)]
    ∧ (loopStep ⟨[], false, some ⟨10, 2, 2⟩, 1000, 0, 1000⟩
        ⟨true, 0, 0, 29, 0, 0⟩).1.frameCount = 0 := by
  have h := C7_fps_counter.1 ⟨[], false, some ⟨10, 2, 2⟩, 1000, 0, 1000⟩
    ⟨true, 0, 0, 29, 0, 0⟩ ⟨10, 2, 2⟩ (by decide) rfl (by decide) (by decide)
  constructor
  · rw [h.1, if_pos (by decide)]
    norm_num
  · exact (h.2 (by decide)).1

/-! ### The event callback of test_connection_simple.cpp -/

/-- Whether `pat` is a leading segment of `s` (on character lists). -/
def listPrefixOf : List Char → List Char → Bool
  | [], _ => true
  | _ :: _, [] => false
  | a :: as, b :: bs => a == b && listPrefixOf as bs

/-- Arduino `s.indexOf(pat) != -1`: `pat` occurs contiguously in `s`,
checked by trying the match at every suffix. -/
def containsSub (pat : List Char) : List Char → Bool
  | [] => listPrefixOf pat []
  | c :: rest => listPrefixOf pat (c :: rest) || containsSub pat rest

namespace TestConn

/-- The two session flags of test_connection_simple.cpp (lines 18-19). -/
structure TState where
  isConnected : Bool
  isAuthenticated : Bool
deriving DecidableEq

/-- The events dispatched to the callback of test_connection_simple.cpp:
the library event constants plus text messages arriving with payload. -/
inductive TEvent where
  | connectionOpened
  | connectionClosed
  | gotPing
  | gotPong
  | textMessage (data : String)
deriving DecidableEq

/-- An externally visible effect of the test-sketch callback. -/
inductive TAction where
  | serialPrint (s : String)
  | pong
  | send (m : Msg)
deriving DecidableEq

/-- The acknowledgment token looked up in inbound text
(test_connection_simple.cpp line 40). -/
def ackToken : String := "connection_ack"

/-- `onEventsCallback` of test_connection_simple.cpp (lines 21-50):
Opened sets Connected and clears Authenticated; Closed clears both;
Ping is answered with a pong; a nonempty text message containing the
acknowledgment token while unauthenticated sets Authenticated and sends
one device-info message. -/
def onEventsCallback (st : TState) (e : TEvent) : TState × List TAction :=
  match e with
  | TEvent.connectionOpened =>
      (⟨true, false⟩, [TAction.serialPrint "WebSocket connection opened"])
  | TEvent.connectionClosed =>
      (⟨false, false⟩, [TAction.serialPrint "WebSocket connection closed"])
  | TEvent.gotPing =>
      (st, [TAction.serialPrint "Received Ping", TAction.pong])
  | TEvent.gotPong =>
      (st, [TAction.serialPrint "Received Pong"])
  | TEvent.textMessage data =>
      if 0 < data.length then
        let pre := [TAction.serialPrint ("Received message: " ++ data)]
        if st.isAuthenticated = false then
          if containsSub ackToken.toList data.toList then
            ({ st with isAuthenticated := true },
             pre ++ [TAction.serialPrint "Authentication successful!",
                     TAction.send (Msg.deviceInfo "esp32cam" "1.0")])
          else (st, pre)
        else (st, pre)
      else (st, [])

end TestConn

/-- Claim C9: the inbound-event handler of the test sketch drives the
session state machine as specified: Opened gives Connected and not yet
Authenticated; a text message containing the acknowledgment token while
unauthenticated gives Authenticated and sends exactly one device-info
message; Ping is answered with a pong; Closed clears both flags. -/
theorem C9_event_state_machine :
    (∀ st : TestConn.TState,
       (TestConn.onEventsCallback st TestConn.TEvent.connectionOpened).1.isConnected = true
       ∧ (TestConn.onEventsCallback st TestConn.TEvent.connectionOpened).1.isAuthenticated
           = false)
    ∧ (∀ (st : TestConn.TState) (data : String),
       st.isAuthenticated = false →
       containsSub TestConn.ackToken.toList data.toList = true →
       (TestConn.onEventsCallback st (TestConn.TEvent.textMessage data)).1.isAuthenticated = true
       ∧ (TestConn.onEventsCallback st (TestConn.TEvent.textMessage data)).2.count
           (TestConn.TAction.send (Msg.deviceInfo "esp32cam" "1.0")) = 1)
    ∧ (∀ st : TestConn.TState,
       TestConn.TAction.pong ∈ (TestConn.onEventsCallback st TestConn.TEvent.gotPing).2)
    ∧ (∀ st : TestConn.TState,
       (TestConn.onEventsCallback st TestConn.TEvent.connectionClosed).1.isConnected = false
       ∧ (TestConn.onEventsCallback st TestConn.TEvent.connectionClosed).1.isAuthenticated
           = false) := by
  refine ⟨fun st => ⟨rfl, rfl⟩, ?_, fun st => by simp [TestConn.onEventsCallback],
    fun st => ⟨rfl, rfl⟩⟩
  intro st data hauth hsub
  have hlen : 0 < data.length := by
    cases hdl : data.toList with
    | nil =>
        rw [hdl] at hsub
        exact absurd hsub (by decide)
    | cons c cs =>
        have hp : 0 < data.toList.length := by
          rw [hdl]
          simp
        exact hp
  simp only [TestConn.onEventsCallback, if_pos hlen, if_pos hauth, if_pos hsub]
  constructor
  · trivial
  · simp [List.count_cons, beq_iff_eq]

/-- Witness for C9: a concrete unauthenticated state receiving a text
message that embeds the acknowledgment token. -/
theorem C9_event_state_machine_witness :
    (TestConn.onEventsCallback ⟨true, false⟩
        (TestConn.TEvent.textMessage "server: connection_ack ok")).1.isAuthenticated = true :=
  (C9_event_state_machine.2.1 ⟨true, false⟩ "server: connection_ack ok" rfl (by decide)).1

/-! ### sendLog guard -/

/-- Claim C10 (implicit): `sendLog` always writes the message to the serial
port; it sends the log-typed JSON message over the WebSocket exactly when
the connected flag is true, so no log message is ever sent on a closed
session. -/
theorem C10_sendLog_guard (st : LoopState) (m : LogMsg) :
    (st.isConnected = false → sendLog st m = [Act.serialPrint m])
    ∧ (st.isConnected = true → sendLog st m = [Act.serialPrint m, Act.send (Msg.log m)])
    ∧ (∀ ms, Act.send ms ∈ sendLog st m → st.isConnected = true) := by
  refine ⟨fun h => by simp [sendLog, h], fun h => by simp [sendLog, h], ?_⟩
  intro ms h
  cases hC : st.isConnected
  · rw [sendLog, hC] at h
    simp at h
  · rfl

/-- Witness for C10: a disconnected state writes to serial only. -/
theorem C10_sendLog_guard_witness :
    sendLog ⟨false, 0, 0, 0, 0, 0⟩ (LogMsg.text "FPS check")
      = [Act.serialPrint (LogMsg.text "FPS check")] :=
  (C10_sendLog_guard ⟨false, 0, 0, 0, 0, 0⟩ (LogMsg.text "FPS check")).1 rfl
